import Mathlib

/-!
Shallow embedding of the pagination core of `envmod-mysql`.

The repository contains three iterations of the same windowed-query
executor:

* `subset.go` — type `Subset` (the most complete variant): coerces a
  requested limit below 1 to `DefaultLimit = 64`, clamps a negative
  offset to 0, over-fetches one row, trims, and derives previous/next
  window state; `MoveBackward`/`MoveForward` return `ErrBOF`/`ErrEOF`.
  Type `Paging` wraps a `Subset` and builds previous/next URLs.
* `core.go` — type `Page` (strict variant): rejects a limit below 1
  with `ErrInvalidLimit` and a negative offset with `ErrInvalidOffset`
  before running the query; `SelectPrevious`/`SelectNext` return
  `sql.ErrNoRows` when no previous/next window exists.

Go integers are modelled as `Int`; the caller-supplied row container is
modelled by the fetched `List` plus a `containerOk : Bool` flag that
records whether `rows` is a pointer to a slice (the reflect checks in
the source). The underlying `stmt.Select` is a parameter `query`; each
operation records the limit/offset (or argument map) it executed the
query with, so that "the query never runs before X" is expressible.
The model assumes the caller passes a non-nil argument object, as every
caller in the repository does (a nil argument would dereference nil at
`args.GetNamedArgs()` in the source).
-/

/-- Error sentinels of the package (`errors.New` values in the source),
plus `noRows` for `sql.ErrNoRows` and `underlying` for an error
propagated verbatim from the query executor. -/
inductive PErr where
  | invalidContainer
  | invalidLimit
  | invalidOffset
  | bof
  | eof
  | noRows
  | underlying (msg : String)
deriving DecidableEq, Repr

/-- `ListQueryParams` of `subset.go`: the caller-owned argument object
holding the requested limit and offset (fields `l` and `o`). -/
structure QueryParams where
  limit : Int
  offset : Int
deriving DecidableEq, Repr

/-- `DefaultLimit = 64` in `subset.go`. -/
def DefaultLimit : Int := 64

/-- The `Subset` executor state of `subset.go`.  `bound` models
`h.args != nil`; `args` holds the values of the argument object that
`h.args` points to (meaningful only when `bound`); `stmtClosed` models
whether `stmt.Close()` has run. -/
structure Subset where
  stmtClosed : Bool
  bound : Bool
  args : QueryParams
  limit : Int
  previous : Int
  next : Int
  hasPrevious : Bool
  hasNext : Bool
deriving DecidableEq, Repr

/-- `NewSubset`: fresh executor, `h.args = nil`, all counters zero. -/
def Subset.new : Subset :=
  { stmtClosed := false, bound := false, args := { limit := 0, offset := 0 },
    limit := 0, previous := 0, next := 0, hasPrevious := false, hasNext := false }

/-- The effective limit derived on the first `Select`:
`if l < 1 { h.limit = DefaultLimit } else { h.limit = l }`. -/
def effLimit (l : Int) : Int := if l < 1 then DefaultLimit else l

/-- Offset clamping on the first `Select`: `if o < 0 { args.SetOffset(0) }`. -/
def clampOffset (o : Int) : Int := if o < 0 then 0 else o

/-- The first block of `Subset.Select` (`subset.go:108-122`): when the
executor is unbound, derive the effective limit, write `limit+1` back to
the argument object, clamp a negative offset, and store the argument. -/
def Subset.bindArgs (st : Subset) (p : QueryParams) : Subset × QueryParams :=
  if st.bound then (st, p)
  else
    let lim := effLimit p.limit
    let a : QueryParams := { limit := lim + 1, offset := clampOffset p.offset }
    ({ st with bound := true, limit := lim, args := a }, a)

/-- The post-query part of `Subset.Select` (`subset.go:128-161`):
previous-window calculation from the stored argument's offset, the
container-shape check, then truncation and next-window calculation. -/
def Subset.window {α : Type} (st : Subset) (containerOk : Bool) (fetched : List α) :
    Except PErr (List α) × Subset :=
  let o := st.args.offset
  let st1 :=
    if 0 < o then
      { st with previous := if o - st.limit < 0 then 0 else o - st.limit, hasPrevious := true }
    else
      { st with previous := 0, hasPrevious := false }
  if containerOk then
    if st1.limit < (fetched.length : Int) then
      (.ok (fetched.take st1.limit.toNat),
        { st1 with next := o + st1.limit, hasNext := true })
    else
      (.ok fetched, { st1 with next := o + (fetched.length : Int), hasNext := false })
  else (.error .invalidContainer, st1)

/-- Result of one `Subset.Select` call: the returned error or trimmed
window, the executor state, the argument object's values after the call
(the executor mutates it in place), and the `(limit, offset)` pair the
underlying query was executed with (`none` if no query ran). -/
structure SelectOutcome (α : Type) where
  result : Except PErr (List α)
  state : Subset
  args : QueryParams
  queried : Option (Int × Int)
deriving Repr

/-- `Subset.Select` of `subset.go`: bind on first call, execute the
prepared statement with the passed argument's named parameters,
propagate an execution error unchanged, otherwise derive window state. -/
def Subset.select {α : Type} (st : Subset) (p : QueryParams) (containerOk : Bool)
    (query : Int → Int → Except String (List α)) : SelectOutcome α :=
  let s := st.bindArgs p
  match query s.2.limit s.2.offset with
  | .error e => ⟨.error (.underlying e), s.1, s.2, some (s.2.limit, s.2.offset)⟩
  | .ok fetched =>
    let r := s.1.window containerOk fetched
    ⟨r.1, r.2, s.2, some (s.2.limit, s.2.offset)⟩

/-- `Subset.MoveBackward`: set the stored argument's offset to the
previous window's offset, or fail with `ErrBOF` without touching
anything. -/
def Subset.moveBackward (st : Subset) : Except PErr Unit × Subset :=
  if st.hasPrevious then (.ok (), { st with args := { st.args with offset := st.previous } })
  else (.error .bof, st)

/-- `Subset.MoveForward`: set the stored argument's offset to the next
window's offset, or fail with `ErrEOF`. -/
def Subset.moveForward (st : Subset) : Except PErr Unit × Subset :=
  if st.hasNext then (.ok (), { st with args := { st.args with offset := st.next } })
  else (.error .eof, st)

/-- `Subset.Close`: releases the prepared statement. -/
def Subset.close (st : Subset) : Subset := { st with stmtClosed := true }

/-- A store of `N` matching rows queried with `LIMIT l OFFSET o` in the
store's natural order: the query returns `min(l, max(0, N - o))` rows. -/
def storeQuery {α : Type} (store : List α) : Int → Int → Except String (List α) :=
  fun l o => .ok ((store.drop o.toNat).take l.toNat)

/-- A Go `any` value stored in the `map[string]any` argument of the
strict `core.go` variant: either an `int` or some other type. -/
inductive GoVal where
  | int (i : Int)
  | other
deriving DecidableEq, Repr

/-- The `map[string]any` argument of `core.go`, restricted to the two
keys the executor reads and writes (`KeyLimit = "l"`, `KeyOffset = "o"`).
Other keys are opaque to the executor and flow to the query untouched. -/
structure CoreArgs where
  l : Option GoVal
  o : Option GoVal
deriving DecidableEq, Repr

/-- The `Page` executor state of `core.go`.  `bound` models
`h.args != nil`; `args` holds the map `h.args` points to. -/
structure CorePage where
  bound : Bool
  args : CoreArgs
  limit : Int
  previous : Int
  next : Int
  hasPrevious : Bool
  hasNext : Bool
deriving DecidableEq, Repr

/-- `NewPageHandler` of `core.go`: fresh strict executor. -/
def CorePage.new : CorePage :=
  { bound := false, args := { l := none, o := none },
    limit := 0, previous := 0, next := 0, hasPrevious := false, hasNext := false }

/-- The type assertion `h.args[KeyOffset].(int)` in `core.go:269`; on the
paths the executor reaches it, the stored offset is always an `int`
(a failed assertion would panic in Go). -/
def getIntD : Option GoVal → Int
  | some (.int i) => i
  | _ => 0

/-- Result of one `core.go` `Page.Select` call: error or trimmed rows,
the executor state, the argument map after the call, and the argument
map the query was executed with (`none` if no query ran). -/
structure CoreOutcome (α : Type) where
  result : Except PErr (List α)
  state : CorePage
  args : CoreArgs
  queried : Option CoreArgs
deriving Repr

/-- The post-query part of `core.go` `Page.Select` (`core.go:268-301`):
when bound, derive previous from the stored offset, check the container
shape, trim and derive next; when unbound, return the rows untouched. -/
def CorePage.window {α : Type} (st : CorePage) (containerOk : Bool) (rows : List α) :
    Except PErr (List α) × CorePage :=
  if st.bound then
    let o := getIntD st.args.o
    let st1 :=
      if 0 < o then
        { st with previous := if o - st.limit < 0 then 0 else o - st.limit, hasPrevious := true }
      else
        { st with previous := 0, hasPrevious := false }
    if containerOk then
      if st1.limit < (rows.length : Int) then
        (.ok (rows.take st1.limit.toNat),
          { st1 with next := o + st1.limit, hasNext := true })
      else
        (.ok rows, { st1 with next := o + (rows.length : Int), hasNext := false })
    else (.error .invalidContainer, st1)
  else (.ok rows, st)

/-- Query execution plus windowing, shared tail of `CorePage.select`. -/
def CorePage.run {α : Type} (st : CorePage) (a : CoreArgs) (containerOk : Bool)
    (query : CoreArgs → Except String (List α)) : CoreOutcome α :=
  match query a with
  | .error e => ⟨.error (.underlying e), st, a, some a⟩
  | .ok rows =>
    let r := st.window containerOk rows
    ⟨r.1, r.2, a, some a⟩

/-- `Page.Select` of `core.go`: validate the limit (`ErrInvalidLimit` for
a non-int or a value below 1), bind the limit on the first call and write
back `limit+1`, validate the offset (`ErrInvalidOffset` for a non-int or
a negative value, defaulting an absent offset to 0), store the argument
map, then execute and window.  When the limit key is absent the whole
validation block is skipped and the query runs with the map as passed. -/
def CorePage.select {α : Type} (st : CorePage) (passed : CoreArgs) (containerOk : Bool)
    (query : CoreArgs → Except String (List α)) : CoreOutcome α :=
  match passed.l with
  | some (.int limit) =>
    if limit < 1 then ⟨.error .invalidLimit, st, passed, none⟩
    else
      let s :=
        if st.bound then (st, passed)
        else ({ st with limit := limit }, { passed with l := some (.int (limit + 1)) })
      match s.2.o with
      | some (.int off) =>
        if off < 0 then ⟨.error .invalidOffset, s.1, s.2, none⟩
        else CorePage.run { s.1 with bound := true, args := s.2 } s.2 containerOk query
      | some .other => ⟨.error .invalidOffset, s.1, s.2, none⟩
      | none =>
        let a := { s.2 with o := some (.int 0) }
        CorePage.run { s.1 with bound := true, args := a } a containerOk query
  | some .other => ⟨.error .invalidLimit, st, passed, none⟩
  | none => CorePage.run st passed containerOk query

/-- `Page.SelectPrevious` of `core.go`: when a previous window exists,
write its offset into the stored map and re-select with it; otherwise
return `sql.ErrNoRows` without executing a query. -/
def CorePage.selectPrevious {α : Type} (st : CorePage) (containerOk : Bool)
    (query : CoreArgs → Except String (List α)) : CoreOutcome α :=
  if st.hasPrevious then
    let a := { st.args with o := some (.int st.previous) }
    CorePage.select { st with args := a } a containerOk query
  else ⟨.error .noRows, st, st.args, none⟩

/-- `Page.SelectNext` of `core.go`: when a next window exists, write its
offset into the stored map and re-select; otherwise `sql.ErrNoRows`. -/
def CorePage.selectNext {α : Type} (st : CorePage) (containerOk : Bool)
    (query : CoreArgs → Except String (List α)) : CoreOutcome α :=
  if st.hasNext then
    let a := { st.args with o := some (.int st.next) }
    CorePage.select { st with args := a } a containerOk query
  else ⟨.error .noRows, st, st.args, none⟩

/-- A `url.Values` query map: each key holds at most one value
(`Values.Set` replaces any existing value for its key). -/
def QMap : Type := String → Option String

/-- The empty query string (`NewPaging` clears `endpoint.RawQuery`). -/
def emptyQ : QMap := fun _ => none

/-- `url.Values.Set(k, v)`. -/
def QMap.set (q : QMap) (k v : String) : QMap :=
  fun k2 => if k2 = k then some v else q k2

/-- The `for k, v := range filters { q.Set(k, v) }` loop.  A Go map has
unique keys, so the (unspecified) iteration order is irrelevant when the
association list has no duplicate keys. -/
def setAll (q : QMap) (ps : List (String × String)) : QMap :=
  ps.foldl (fun acc kv => acc.set kv.1 kv.2) q

/-- `delete(filters, keyLimit); delete(filters, keyOffset)`. -/
def dropKeys (ps : List (String × String)) (kl ko : String) : List (String × String) :=
  ps.filter fun kv => !(kv.1 == kl) && !(kv.1 == ko)

/-- The `Paging` wrapper of `subset.go`: an embedded `Subset`, the two
optional navigation links (modelled by the query map each URL carries —
the endpoint host and path are fixed and shared), and the endpoint's
current query string. -/
structure Paging where
  subset : Subset
  previousLink : Option QMap
  nextLink : Option QMap
  endpointQuery : QMap

/-- Fresh `Paging` over a fresh `Subset` (`NewPaging` clears the
endpoint's query string and leaves both links nil). -/
def Paging.new : Paging :=
  { subset := Subset.new, previousLink := none, nextLink := none, endpointQuery := emptyQ }

/-- Result of one `Paging.Select` call. -/
structure PagingOutcome (α : Type) where
  result : Except PErr (List α)
  paging : Paging
  args : QueryParams

/-- `Paging.Select` of `subset.go`: defer `Close`, delegate to
`Subset.Select`, and on success build the navigation links — parse the
endpoint's query, write every non-pagination filter, then for each of
previous/next in turn (when `GetPrevious`/`GetNext` succeeds) overwrite
the reserved limit/offset keys in the same map, re-encode into the
endpoint, and capture the URL.  `filters`, `kl`, `ko` are the values of
`queryParams.Filters()` and `queryParams.SubsetKeys()`. -/
def Paging.select {α : Type} (pg : Paging) (p : QueryParams) (containerOk : Bool)
    (filters : List (String × String)) (kl ko : String)
    (query : Int → Int → Except String (List α)) : PagingOutcome α :=
  let out := pg.subset.select p containerOk query
  let sub := out.state.close
  match out.result with
  | .error e => ⟨.error e, { pg with subset := sub }, out.args⟩
  | .ok w =>
    let q1 := setAll pg.endpointQuery (dropKeys filters kl ko)
    let q2 :=
      if sub.hasPrevious then (q1.set kl (toString sub.limit)).set ko (toString sub.previous)
      else q1
    let prev := if sub.hasPrevious then some q2 else pg.previousLink
    let eq2 := if sub.hasPrevious then q2 else pg.endpointQuery
    let q3 :=
      if sub.hasNext then (q2.set kl (toString sub.limit)).set ko (toString sub.next)
      else q2
    let nxt := if sub.hasNext then some q3 else pg.nextLink
    let eq3 := if sub.hasNext then q3 else eq2
    ⟨.ok w, { subset := sub, previousLink := prev, nextLink := nxt, endpointQuery := eq3 }, out.args⟩

/-! Helper lemmas about the `Subset` executor. -/

lemma one_le_effLimit (l : Int) : 1 ≤ effLimit l := by
  unfold effLimit DefaultLimit; split <;> omega

lemma Subset.select_bound_ok {α : Type} (st : Subset) (p : QueryParams) (c : Bool)
    (q : Int → Int → Except String (List α)) (rows : List α)
    (hb : st.bound = true) (hq : q p.limit p.offset = .ok rows) :
    st.select p c q =
      (let o := st.args.offset
       let prev : Int := if 0 < o then (if o - st.limit < 0 then 0 else o - st.limit) else 0
       let hasPrev : Bool := decide (0 < o)
       if c then
        (if st.limit < (rows.length : Int) then
          ⟨.ok (rows.take st.limit.toNat),
           { st with previous := prev, hasPrevious := hasPrev,
                     next := o + st.limit, hasNext := true },
           p, some (p.limit, p.offset)⟩
        else
          ⟨.ok rows,
           { st with previous := prev, hasPrevious := hasPrev,
                     next := o + (rows.length : Int), hasNext := false },
           p, some (p.limit, p.offset)⟩)
       else
        ⟨.error .invalidContainer,
         { st with previous := prev, hasPrevious := hasPrev }, p, some (p.limit, p.offset)⟩) := by
  simp only [Subset.select, Subset.bindArgs, hb, if_true, hq, Subset.window]
  by_cases ho : 0 < st.args.offset <;> by_cases hc : c = true <;>
    by_cases hlen : st.limit < (rows.length : Int) <;>
    simp [ho, hc, hlen]

lemma Subset.select_bound_err {α : Type} (st : Subset) (p : QueryParams) (c : Bool)
    (q : Int → Int → Except String (List α)) (e : String)
    (hb : st.bound = true) (hq : q p.limit p.offset = .error e) :
    st.select p c q = ⟨.error (.underlying e), st, p, some (p.limit, p.offset)⟩ := by
  simp [Subset.select, Subset.bindArgs, hb, hq]

lemma Subset.select_unbound {α : Type} (st : Subset) (p : QueryParams) (c : Bool)
    (q : Int → Int → Except String (List α)) (hb : st.bound = false) :
    st.select p c q =
      Subset.select
        { st with bound := true, limit := effLimit p.limit,
                  args := { limit := effLimit p.limit + 1, offset := clampOffset p.offset } }
        { limit := effLimit p.limit + 1, offset := clampOffset p.offset } c q := by
  simp [Subset.select, Subset.bindArgs, hb]

lemma Subset.select_preserves {α : Type} (st : Subset) (p : QueryParams) (c : Bool)
    (q : Int → Int → Except String (List α)) (hb : st.bound = true) :
    (st.select p c q).state.limit = st.limit ∧ (st.select p c q).state.bound = true := by
  cases hq : q p.limit p.offset with
  | error e => rw [Subset.select_bound_err st p c q e hb hq]; exact ⟨rfl, hb⟩
  | ok rows => rw [Subset.select_bound_ok st p c q rows hb hq]; split_ifs <;> simp [hb]

lemma Subset.select_queried {α : Type} (st : Subset) (p : QueryParams) (c : Bool)
    (q : Int → Int → Except String (List α)) (hb : st.bound = true) :
    (st.select p c q).queried = some (p.limit, p.offset) := by
  cases hq : q p.limit p.offset with
  | error e => rw [Subset.select_bound_err st p c q e hb hq]
  | ok rows => rw [Subset.select_bound_ok st p c q rows hb hq]; split_ifs <;> rfl

/-- C1: for every successful `Select` on a bound executor with effective
limit `L` and offset `o`, where the underlying query returns `n` rows:
if `n > L` the row collection is truncated to exactly `L` rows,
`hasNext` is true and `nextOffset = o + L`; otherwise all `n` rows are
kept, `hasNext` is false and `nextOffset = o + n`. -/
theorem subset_select_truncation {α : Type} (st : Subset) (p : QueryParams)
    (query : Int → Int → Except String (List α)) (rows : List α)
    (hb : st.bound = true) (hl : 1 ≤ st.limit)
    (hq : query p.limit p.offset = .ok rows) :
    (((rows.length : Int) > st.limit →
        (st.select p true query).result = .ok (rows.take st.limit.toNat) ∧
        ((rows.take st.limit.toNat).length : Int) = st.limit ∧
        (st.select p true query).state.hasNext = true ∧
        (st.select p true query).state.next = st.args.offset + st.limit) ∧
     ((rows.length : Int) ≤ st.limit →
        (st.select p true query).result = .ok rows ∧
        (st.select p true query).state.hasNext = false ∧
        (st.select p true query).state.next = st.args.offset + (rows.length : Int))) := by
  simp only [Subset.select, Subset.bindArgs, hb, if_true, hq, Subset.window]
  by_cases ho : 0 < st.args.offset <;>
    by_cases hlen : st.limit < (rows.length : Int) <;>
      simp only [ho, hlen, if_true, if_false] <;>
      (constructor <;> intro h) <;>
      (try exact absurd h (by omega)) <;>
      simp_all [List.length_take] <;> omega

/-- Witness for C1 at a bound executor with limit 2 and offset 0 whose
query returns 3 rows: the window is truncated to the first 2 rows,
`hasNext` is set and `nextOffset = 0 + 2`. -/
theorem subset_select_truncation_witness :
    (Subset.select
      { stmtClosed := false, bound := true, args := { limit := 3, offset := 0 },
        limit := 2, previous := 0, next := 0, hasPrevious := false, hasNext := false }
      { limit := 3, offset := 0 } true (fun _ _ => .ok ([0, 1, 2] : List Nat))).result =
      .ok [0, 1] :=
  ((subset_select_truncation
      { stmtClosed := false, bound := true, args := { limit := 3, offset := 0 },
        limit := 2, previous := 0, next := 0, hasPrevious := false, hasNext := false }
      { limit := 3, offset := 0 } (fun _ _ => .ok ([0, 1, 2] : List Nat)) [0, 1, 2]
      rfl (by decide) rfl).1 (by decide)).1

/-- C2: over a store of `N` matching rows, a first `Select` with
effective limit `L` and offset `o ≥ 0` (the query over-fetches, so it
returns `min(L+1, max(0, N-o))` rows) succeeds and sets `hasNext` iff
the store contains at least `o + L + 1` matching rows. -/
theorem subset_select_hasNext_iff {α : Type} (store : List α) (p : QueryParams)
    (ho : 0 ≤ p.offset) :
    ((Subset.new.select p true (storeQuery store)).state.hasNext = true ↔
      (store.length : Int) ≥ p.offset + effLimit p.limit + 1) ∧
    ∃ w, (Subset.new.select p true (storeQuery store)).result = .ok w := by
  have h1 : 1 ≤ effLimit p.limit := one_le_effLimit p.limit
  have hc : clampOffset p.offset = p.offset := by unfold clampOffset; split <;> omega
  simp [Subset.select, Subset.bindArgs, Subset.new, Subset.window, storeQuery, hc]
  by_cases hop : 0 < p.offset <;>
    simp only [hop, if_true, if_false] <;>
    split_ifs with hcond <;>
    refine ⟨?_, ⟨_, rfl⟩⟩ <;>
    simp <;> omega

/-- Witness for C2: a store of 10 rows, limit 4, offset 0 has a next
window (10 ≥ 0 + 4 + 1). -/
theorem subset_select_hasNext_iff_witness :
    ((Subset.new.select { limit := 4, offset := 0 } true
        (storeQuery (List.range 10))).state.hasNext = true ↔
      ((List.range 10).length : Int) ≥ 0 + effLimit 4 + 1) ∧
    ∃ w, (Subset.new.select { limit := 4, offset := 0 } true
        (storeQuery (List.range 10))).result = .ok w :=
  subset_select_hasNext_iff (List.range 10) { limit := 4, offset := 0 } (by decide)

/-- C3: after every successful `Select` on a bound executor with
effective limit `L` and offset `o`, `hasPrevious = (o > 0)` and
`previousOffset = max(0, o - L)`, whatever the query returned. -/
theorem subset_select_previous_state {α : Type} (st : Subset) (p : QueryParams)
    (containerOk : Bool) (query : Int → Int → Except String (List α)) (w : List α)
    (hb : st.bound = true) (hl : 1 ≤ st.limit) (ho : 0 ≤ st.args.offset)
    (hr : (st.select p containerOk query).result = .ok w) :
    ((st.select p containerOk query).state.hasPrevious = true ↔ 0 < st.args.offset) ∧
    (st.select p containerOk query).state.previous = max 0 (st.args.offset - st.limit) := by
  cases hq : query p.limit p.offset with
  | error e =>
    rw [Subset.select_bound_err st p containerOk query e hb hq] at hr
    exact absurd hr (by simp)
  | ok rows =>
    rw [Subset.select_bound_ok st p containerOk query rows hb hq] at hr ⊢
    by_cases hc2 : containerOk = true
    · by_cases hlen : st.limit < (rows.length : Int) <;>
        simp only [hc2, hlen, if_true, if_false] <;>
        refine ⟨by simp, by split_ifs <;> omega⟩
    · simp [hc2] at hr

/-- Witness for C3 at a bound executor with limit 4 and offset 8 whose
query returns no rows: `hasPrevious` holds and `previousOffset = 4`. -/
theorem subset_select_previous_state_witness :
    ((Subset.select
        { stmtClosed := false, bound := true, args := { limit := 5, offset := 8 },
          limit := 4, previous := 0, next := 0, hasPrevious := false, hasNext := false }
        { limit := 5, offset := 8 } true (fun _ _ => .ok ([] : List Nat))).state.hasPrevious = true
      ↔ (0 : Int) < 8) ∧
    (Subset.select
        { stmtClosed := false, bound := true, args := { limit := 5, offset := 8 },
          limit := 4, previous := 0, next := 0, hasPrevious := false, hasNext := false }
        { limit := 5, offset := 8 } true (fun _ _ => .ok ([] : List Nat))).state.previous =
      max 0 (8 - 4) :=
  subset_select_previous_state
    { stmtClosed := false, bound := true, args := { limit := 5, offset := 8 },
      limit := 4, previous := 0, next := 0, hasPrevious := false, hasNext := false }
    { limit := 5, offset := 8 } true (fun _ _ => .ok ([] : List Nat)) []
    rfl (by decide) (by decide) rfl

/-! Helper lemmas about the strict `core.go` executor. -/

lemma CorePage.window_preserves {α : Type} (st : CorePage) (c : Bool) (rows : List α) :
    (st.window c rows).2.limit = st.limit ∧ (st.window c rows).2.bound = st.bound := by
  unfold CorePage.window
  by_cases hb : st.bound = true <;>
    by_cases ho : 0 < getIntD st.args.o <;>
    by_cases hc : c = true <;>
    by_cases hlen : st.limit < (rows.length : Int) <;>
    simp [hb, ho, hc, hlen]

lemma CorePage.run_preserves {α : Type} (st : CorePage) (a : CoreArgs) (c : Bool)
    (q : CoreArgs → Except String (List α)) :
    (st.run a c q).state.limit = st.limit ∧ (st.run a c q).state.bound = st.bound := by
  unfold CorePage.run
  cases hq : q a with
  | error e => simp [hq]
  | ok rows =>
    simp only [hq]
    exact CorePage.window_preserves st c rows

lemma CorePage.select_preserves_core {α : Type} (st : CorePage) (passed : CoreArgs) (c : Bool)
    (q : CoreArgs → Except String (List α)) (hb : st.bound = true) :
    (st.select passed c q).state.limit = st.limit ∧ (st.select passed c q).state.bound = true := by
  unfold CorePage.select
  cases hpl : passed.l with
  | none =>
    have h := CorePage.run_preserves st passed c q
    simpa [hb] using h
  | some v =>
    cases v with
    | other => exact ⟨rfl, hb⟩
    | int limit =>
      by_cases hlim : limit < 1
      · simp [hlim, hb]
      · simp only [hlim, if_false, hb, if_true]
        cases hpo : passed.o with
        | none =>
          have h := CorePage.run_preserves
            { st with bound := true, args := { passed with o := some (.int 0) } }
            { passed with o := some (.int 0) } c q
          simpa using h
        | some w =>
          cases w with
          | other => exact ⟨rfl, hb⟩
          | int off =>
            by_cases hoff : off < 0
            · simp [hoff, hb]
            · simp only [hoff, if_false]
              have h := CorePage.run_preserves
                { st with bound := true, args := passed } passed c q
              simpa using h

lemma CorePage.selectPrevious_preserves {α : Type} (st : CorePage) (c : Bool)
    (q : CoreArgs → Except String (List α)) (hb : st.bound = true) :
    (st.selectPrevious c q).state.limit = st.limit ∧
    (st.selectPrevious c q).state.bound = true := by
  unfold CorePage.selectPrevious
  by_cases hp : st.hasPrevious = true
  · rw [if_pos hp]
    exact CorePage.select_preserves_core
      { st with args := { st.args with o := some (.int st.previous) } }
      { st.args with o := some (.int st.previous) } c q hb
  · rw [if_neg hp]
    exact ⟨rfl, hb⟩

lemma CorePage.selectNext_preserves {α : Type} (st : CorePage) (c : Bool)
    (q : CoreArgs → Except String (List α)) (hb : st.bound = true) :
    (st.selectNext c q).state.limit = st.limit ∧
    (st.selectNext c q).state.bound = true := by
  unfold CorePage.selectNext
  by_cases hp : st.hasNext = true
  · rw [if_pos hp]
    exact CorePage.select_preserves_core
      { st with args := { st.args with o := some (.int st.next) } }
      { st.args with o := some (.int st.next) } c q hb
  · rw [if_neg hp]
    exact ⟨rfl, hb⟩

/-- C4 counterexample: the claim says a requested limit below 1 is
coerced to the default 64 "rather than causing an error" and a negative
offset is clamped to 0, citing both `subset.go` and `core.go`.  The
strict `core.go` executor instead returns `ErrInvalidLimit` for limit 0
and `ErrInvalidOffset` for offset -1. -/
theorem corePage_limit_zero_errors :
    ((CorePage.new.select { l := some (.int 0), o := some (.int 0) } true
        (fun _ => .ok ([] : List Nat))).result = .error .invalidLimit) ∧
    ((CorePage.new.select { l := some (.int 2), o := some (.int (-1)) } true
        (fun _ => .ok ([] : List Nat))).result = .error .invalidOffset) := ⟨rfl, rfl⟩

/-- C4 as amended: on the first `Select` of a `Subset` executor a limit
below 1 is coerced to the default 64 and a negative offset is clamped to
0, and the query runs with limit `effectiveLimit + 1 > 0`; the strict
`core.go` executor instead rejects a limit below 1 with
`ErrInvalidLimit` and a negative offset with `ErrInvalidOffset`, in both
cases before any query executes. -/
theorem first_select_normalization {α β : Type}
    (p : QueryParams) (c : Bool) (q : Int → Int → Except String (List α))
    (st : CorePage) (c2 : Bool) (qc : CoreArgs → Except String (List β))
    (a1 a2 : CoreArgs) (i j k : Int)
    (h1 : a1.l = some (.int i)) (h2 : i < 1)
    (h3 : a2.l = some (.int j)) (h4 : 1 ≤ j)
    (h5 : a2.o = some (.int k)) (h6 : k < 0) :
    ((Subset.new.select p c q).state.limit = effLimit p.limit ∧
     1 ≤ effLimit p.limit ∧
     (p.limit < 1 → effLimit p.limit = DefaultLimit) ∧
     (Subset.new.select p c q).queried = some (effLimit p.limit + 1, clampOffset p.offset) ∧
     (p.offset < 0 → clampOffset p.offset = 0) ∧
     0 < effLimit p.limit + 1) ∧
    ((st.select a1 c2 qc).result = .error .invalidLimit ∧ (st.select a1 c2 qc).queried = none) ∧
    ((st.select a2 c2 qc).result = .error .invalidOffset ∧ (st.select a2 c2 qc).queried = none) := by
  refine ⟨⟨?_, one_le_effLimit p.limit, ?_, ?_, ?_, ?_⟩, ?_, ?_⟩
  · rw [Subset.select_unbound Subset.new p c q rfl]
    exact (Subset.select_preserves _ _ c q rfl).1
  · intro h; simp [effLimit, h]
  · rw [Subset.select_unbound Subset.new p c q rfl]
    exact Subset.select_queried _ _ c q rfl
  · intro h; simp [clampOffset, h]
  · have := one_le_effLimit p.limit; omega
  · simp [CorePage.select, h1, h2]
  · have hj : ¬ (j < 1) := by omega
    by_cases hsb : st.bound = true <;>
      simp [CorePage.select, h3, hj, h5, h6, hsb]

/-- Witness for the amended C4: requested limit 0 and offset -5 are
normalized to effective limit 64 and offset 0 on a `Subset`, while the
strict executor rejects limit 0 and offset -1 without querying. -/
theorem first_select_normalization_witness :
    ((Subset.new.select { limit := 0, offset := -5 } true
        (fun _ _ => .ok ([] : List Nat))).state.limit = effLimit 0 ∧
      1 ≤ effLimit 0 ∧
      ((0 : Int) < 1 → effLimit 0 = DefaultLimit) ∧
      (Subset.new.select { limit := 0, offset := -5 } true
        (fun _ _ => .ok ([] : List Nat))).queried =
          some (effLimit 0 + 1, clampOffset (-5)) ∧
      ((-5 : Int) < 0 → clampOffset (-5) = 0) ∧
      (0 : Int) < effLimit 0 + 1) ∧
     ((CorePage.new.select { l := some (.int 0), o := some (.int 0) } true
        (fun _ => .ok ([] : List Nat))).result = .error .invalidLimit ∧
      (CorePage.new.select { l := some (.int 0), o := some (.int 0) } true
        (fun _ => .ok ([] : List Nat))).queried = none) ∧
     ((CorePage.new.select { l := some (.int 2), o := some (.int (-1)) } true
        (fun _ => .ok ([] : List Nat))).result = .error .invalidOffset ∧
      (CorePage.new.select { l := some (.int 2), o := some (.int (-1)) } true
        (fun _ => .ok ([] : List Nat))).queried = none) :=
  first_select_normalization { limit := 0, offset := -5 } true (fun _ _ => .ok ([] : List Nat))
    CorePage.new true (fun _ => .ok ([] : List Nat))
    { l := some (.int 0), o := some (.int 0) } { l := some (.int 2), o := some (.int (-1)) }
    0 2 (-1) rfl (by decide) rfl (by decide) rfl (by decide)

/-- C5: the effective limit is bound on the first `Select` and reused
unchanged by every later `Select`, `MoveForward`/`MoveBackward` (the
`subset.go` navigation calls) and `SelectPrevious`/`SelectNext` (the
`core.go` ones), whatever argument those calls carry; and no operation
returns an executor to the unbound state. -/
theorem effective_limit_fixed {α β γ : Type}
    (st : Subset) (p : QueryParams) (c : Bool) (q : Int → Int → Except String (List α))
    (st0 : Subset) (p0 : QueryParams) (c0 : Bool) (q0 : Int → Int → Except String (List β))
    (cp : CorePage) (a : CoreArgs) (c2 : Bool) (qc : CoreArgs → Except String (List γ))
    (hb : st.bound = true) (hb0 : st0.bound = false) (hcb : cp.bound = true) :
    ((st.select p c q).state.limit = st.limit ∧ (st.select p c q).state.bound = true) ∧
    ((st.moveForward).2.limit = st.limit ∧ (st.moveForward).2.bound = true ∧
     (st.moveBackward).2.limit = st.limit ∧ (st.moveBackward).2.bound = true) ∧
    ((st0.select p0 c0 q0).state.limit = effLimit p0.limit ∧
     (st0.select p0 c0 q0).state.bound = true) ∧
    ((cp.select a c2 qc).state.limit = cp.limit ∧ (cp.select a c2 qc).state.bound = true) ∧
    ((cp.selectPrevious c2 qc).state.limit = cp.limit ∧
     (cp.selectPrevious c2 qc).state.bound = true ∧
     (cp.selectNext c2 qc).state.limit = cp.limit ∧
     (cp.selectNext c2 qc).state.bound = true) := by
  refine ⟨Subset.select_preserves st p c q hb, ?_, ?_,
    CorePage.select_preserves_core cp a c2 qc hcb, ?_⟩
  · unfold Subset.moveForward Subset.moveBackward
    split_ifs <;> simp [hb]
  · rw [Subset.select_unbound st0 p0 c0 q0 hb0]
    have h := Subset.select_preserves
      { st0 with bound := true, limit := effLimit p0.limit,
                 args := { limit := effLimit p0.limit + 1, offset := clampOffset p0.offset } }
      { limit := effLimit p0.limit + 1, offset := clampOffset p0.offset } c0 q0 rfl
    simpa using h
  · have h1 := CorePage.selectPrevious_preserves cp c2 qc hcb
    have h2 := CorePage.selectNext_preserves cp c2 qc hcb
    exact ⟨h1.1, h1.2, h2.1, h2.2⟩

/-- A bound `Subset` executor with limit 7, used as a C5 witness input. -/
def c5St : Subset :=
  { stmtClosed := false, bound := true, args := { limit := 8, offset := 0 },
    limit := 7, previous := 0, next := 0, hasPrevious := false, hasNext := true }

/-- A bound strict executor with limit 7, used as a C5 witness input. -/
def c5Cp : CorePage :=
  { bound := true, args := { l := some (.int 8), o := some (.int 0) },
    limit := 7, previous := 0, next := 7, hasPrevious := false, hasNext := true }

/-- A query returning no rows, used as a C5 witness input. -/
def c5Q : Int → Int → Except String (List Nat) := fun _ _ => .ok []

/-- A query over map arguments returning no rows, C5 witness input. -/
def c5Qc : CoreArgs → Except String (List Nat) := fun _ => .ok []

/-- Witness for C5 at concrete bound executors with limit 7 and a fresh
executor receiving limit 3: every operation leaves the limit and the
bound flag unchanged. -/
theorem effective_limit_fixed_witness :
    ((c5St.select { limit := 1, offset := 2 } true c5Q).state.limit = c5St.limit ∧
     (c5St.select { limit := 1, offset := 2 } true c5Q).state.bound = true) ∧
    ((c5St.moveForward).2.limit = c5St.limit ∧ (c5St.moveForward).2.bound = true ∧
     (c5St.moveBackward).2.limit = c5St.limit ∧ (c5St.moveBackward).2.bound = true) ∧
    ((Subset.new.select { limit := 3, offset := 4 } true c5Q).state.limit = effLimit 3 ∧
     (Subset.new.select { limit := 3, offset := 4 } true c5Q).state.bound = true) ∧
    ((c5Cp.select { l := none, o := none } true c5Qc).state.limit = c5Cp.limit ∧
     (c5Cp.select { l := none, o := none } true c5Qc).state.bound = true) ∧
    ((c5Cp.selectPrevious true c5Qc).state.limit = c5Cp.limit ∧
     (c5Cp.selectPrevious true c5Qc).state.bound = true ∧
     (c5Cp.selectNext true c5Qc).state.limit = c5Cp.limit ∧
     (c5Cp.selectNext true c5Qc).state.bound = true) :=
  effective_limit_fixed c5St { limit := 1, offset := 2 } true c5Q
    Subset.new { limit := 3, offset := 4 } true c5Q
    c5Cp { l := none, o := none } true c5Qc rfl rfl rfl

/-- C6: `subset.go` `MoveBackward`/`MoveForward` do return the distinct
`ErrBOF`/`ErrEOF` signals without querying, but the `core.go`
`SelectPrevious`/`SelectNext` cited by the claim return `sql.ErrNoRows`
— exactly the store's "no rows found" error — when no previous/next
window exists, contradicting the claim (and `core.go`'s own
`GetPrevious`/`GetNext`, which return `ErrBOF`/`ErrEOF` for the same
condition). -/
theorem corePage_selectPrevious_noRows :
    ((CorePage.new.selectPrevious true (fun _ => .ok ([] : List Nat))).result
        = .error .noRows) ∧
    ((CorePage.new.selectPrevious true (fun _ => .ok ([] : List Nat))).queried = none) ∧
    ((CorePage.new.selectNext true (fun _ => .ok ([] : List Nat))).result = .error .noRows) ∧
    ((CorePage.new.selectNext true (fun _ => .ok ([] : List Nat))).queried = none) ∧
    (PErr.noRows ≠ PErr.bof) ∧ (PErr.noRows ≠ PErr.eof) ∧
    ((Subset.new.moveBackward).1 = .error .bof) ∧
    ((Subset.new.moveForward).1 = .error .eof) :=
  ⟨rfl, rfl, rfl, rfl, by decide, by decide, rfl, rfl⟩

/-- C7 counterexample: with an invalid container (not a pointer to a
slice) the `Subset` executor still executes the query — `queried` is
`some (2, 0)` — and only then returns `ErrInvalidContainer`, so the
container-shape validation error is not detected before a query
executes. -/
theorem invalid_container_after_query :
    ((Subset.new.select { limit := 1, offset := 0 } false
        (fun _ _ => .ok ([0] : List Nat))).result = .error .invalidContainer) ∧
    ((Subset.new.select { limit := 1, offset := 0 } false
        (fun _ _ => .ok ([0] : List Nat))).queried = some (2, 0)) := ⟨rfl, rfl⟩

/-- C7 as amended: the limit and offset validation errors of the strict
executor are returned before any query executes, but the invalid
container shape is detected only after the query has executed. -/
theorem validation_order {α β : Type}
    (st : CorePage) (c2 : Bool) (qc : CoreArgs → Except String (List β))
    (a1 a2 : CoreArgs) (i j k : Int)
    (h1 : a1.l = some (.int i)) (h2 : i < 1)
    (h3 : a2.l = some (.int j)) (h4 : 1 ≤ j)
    (h5 : a2.o = some (.int k)) (h6 : k < 0)
    (st2 : Subset) (p : QueryParams) (q2 : Int → Int → Except String (List α))
    (hq2 : ∀ l o, ∃ rows, q2 l o = .ok rows) :
    ((st.select a1 c2 qc).result = .error .invalidLimit ∧ (st.select a1 c2 qc).queried = none) ∧
    ((st.select a2 c2 qc).result = .error .invalidOffset ∧ (st.select a2 c2 qc).queried = none) ∧
    ((st2.select p false q2).result = .error .invalidContainer ∧
     (st2.select p false q2).queried.isSome = true) := by
  refine ⟨?_, ?_, ?_⟩
  · simp [CorePage.select, h1, h2]
  · have hj : ¬ (j < 1) := by omega
    by_cases hsb : st.bound = true <;> simp [CorePage.select, h3, hj, h5, h6, hsb]
  · by_cases hb : st2.bound = true
    · obtain ⟨rows, hq⟩ := hq2 p.limit p.offset
      rw [Subset.select_bound_ok st2 p false q2 rows hb hq]
      simp
    · rw [Subset.select_unbound st2 p false q2 (by simpa using hb)]
      obtain ⟨rows, hq⟩ := hq2 (effLimit p.limit + 1) (clampOffset p.offset)
      rw [Subset.select_bound_ok _ _ false q2 rows rfl hq]
      simp

/-- A query over map arguments returning no rows, C7 witness input. -/
def c7Qc : CoreArgs → Except String (List Nat) := fun _ => .ok []

/-- A query returning one row on every input, C7 witness input. -/
def c7Q2 : Int → Int → Except String (List Nat) := fun _ _ => .ok [0]

/-- Witness for the amended C7: limit 0 and offset -3 are rejected with
no query executed, while the invalid-container error arrives only after
the query ran. -/
theorem validation_order_witness :
    ((CorePage.new.select { l := some (.int 0), o := none } true c7Qc).result =
        .error .invalidLimit ∧
     (CorePage.new.select { l := some (.int 0), o := none } true c7Qc).queried = none) ∧
    ((CorePage.new.select { l := some (.int 2), o := some (.int (-3)) } true c7Qc).result =
        .error .invalidOffset ∧
     (CorePage.new.select { l := some (.int 2), o := some (.int (-3)) } true c7Qc).queried =
        none) ∧
    ((Subset.new.select { limit := 1, offset := 0 } false c7Q2).result =
        .error .invalidContainer ∧
     (Subset.new.select { limit := 1, offset := 0 } false c7Q2).queried.isSome = true) :=
  validation_order CorePage.new true c7Qc
    { l := some (.int 0), o := none } { l := some (.int 2), o := some (.int (-3)) }
    0 2 (-3) rfl (by decide) rfl (by decide) rfl (by decide)
    Subset.new { limit := 1, offset := 0 } c7Q2 (fun _ _ => ⟨[0], rfl⟩)

/-- C8 counterexample: the first `Select` writes `effectiveLimit + 1`
back into the caller's argument object, so passing the same (now
mutated) argument to a second fresh executor over the unchanged 3-row
store binds effective limit 2 instead of 1 and returns a 2-row window
where the first executor returned 1 row — the two outcomes are not
identical. -/
theorem select_mutated_arg_differs :
    ((Subset.new.select { limit := 1, offset := 0 } true (storeQuery [10, 20, 30])).args =
      { limit := 2, offset := 0 }) ∧
    ((Subset.new.select { limit := 1, offset := 0 } true (storeQuery [10, 20, 30])).result =
      .ok [10]) ∧
    ((Subset.new.select
        (Subset.new.select { limit := 1, offset := 0 } true (storeQuery [10, 20, 30])).args
        true (storeQuery [10, 20, 30])).result = .ok [10, 20]) ∧
    (([10] : List Nat) ≠ [10, 20]) ∧
    ((Subset.new.select { limit := 1, offset := 0 } true
        (storeQuery [10, 20, 30])).state.limit = 1) ∧
    ((Subset.new.select
        (Subset.new.select { limit := 1, offset := 0 } true (storeQuery [10, 20, 30])).args
        true (storeQuery [10, 20, 30])).state.limit = 2) ∧
    ((1 : Int) ≠ 2) :=
  ⟨rfl, rfl, rfl, by decide, rfl, rfl, by decide⟩

/-- C8 as amended: two fresh executor instances over the same store
yield identical outcomes when given arguments holding equal limit and
offset values — the original values, not the same argument object after
the first call mutated it in place. -/
theorem select_depends_only_on_arg_values {α : Type} (p1 p2 : QueryParams) (c : Bool)
    (q : Int → Int → Except String (List α))
    (h1 : p1.limit = p2.limit) (h2 : p1.offset = p2.offset) :
    Subset.new.select p1 c q = Subset.new.select p2 c q := by
  have h : p1 = p2 := by cases p1; cases p2; simp_all
  rw [h]

/-- Witness for the amended C8 at limit 4, offset 2 over a 3-row store. -/
theorem select_depends_only_on_arg_values_witness :
    Subset.new.select { limit := 4, offset := 2 } true (storeQuery [1, 2, 3]) =
      Subset.new.select { limit := 4, offset := 2 } true (storeQuery [1, 2, 3]) :=
  select_depends_only_on_arg_values { limit := 4, offset := 2 } { limit := 4, offset := 2 }
    true (storeQuery ([1, 2, 3] : List Nat)) rfl rfl

/-! Helper lemmas about `url.Values` query maps. -/

lemma QMap.set_override (q : QMap) (kl ko a b c d : String) :
    (((q.set kl a).set ko b).set kl c).set ko d = (q.set kl c).set ko d := by
  funext k
  unfold QMap.set
  split_ifs <;> rfl

lemma setAll_not_mem (q : QMap) (ps : List (String × String)) (k : String)
    (h : k ∉ ps.map Prod.fst) : setAll q ps k = q k := by
  induction ps generalizing q with
  | nil => rfl
  | cons kv rest ih =>
    simp only [List.map_cons, List.mem_cons] at h
    push_neg at h
    have hstep : setAll q (kv :: rest) = setAll (q.set kv.1 kv.2) rest := rfl
    rw [hstep, ih _ h.2]
    unfold QMap.set
    rw [if_neg h.1]

lemma setAll_mem (q : QMap) (ps : List (String × String)) (k v : String)
    (hnd : (ps.map Prod.fst).Nodup) (hm : (k, v) ∈ ps) : setAll q ps k = some v := by
  induction ps generalizing q with
  | nil => cases hm
  | cons kv rest ih =>
    simp only [List.map_cons, List.nodup_cons] at hnd
    have hstep : setAll q (kv :: rest) = setAll (q.set kv.1 kv.2) rest := rfl
    rcases List.mem_cons.mp hm with heq | htail
    · have hk : kv.1 = k := by rw [← heq]
      have hv : kv.2 = v := by rw [← heq]
      rw [hstep, setAll_not_mem _ _ _ (by rw [hk] at hnd; exact hnd.1)]
      unfold QMap.set
      rw [if_pos hk.symm, hv]
    · exact hstep ▸ ih (q.set kv.1 kv.2) hnd.2 htail

/-- C10: every call to the link-decorated `Paging.Select` leaves the
underlying prepared statement closed (the deferred `Close` runs on
every path, success or error), so a `Paging` instance supports exactly
one `Select`; later calls find the statement already closed. -/
theorem paging_select_closes_stmt {α : Type} (pg : Paging) (p : QueryParams) (c : Bool)
    (filters : List (String × String)) (kl ko : String)
    (query : Int → Int → Except String (List α)) :
    (pg.select p c filters kl ko query).paging.subset.stmtClosed = true := by
  unfold Paging.select
  cases h : (pg.subset.select p c query).result <;> simp [h, Subset.close]

/-- C9: after a successful paging `Select` on a fresh `Paging`, each
navigation link is absent exactly when its `has*` flag is false (with
no error); a present link holds the effective limit under the reserved
limit key, the respective previous/next offset under the reserved
offset key, and every non-pagination filter parameter; and each link's
content is fully determined by those values, so building the previous
link leaks nothing into the next link and vice versa. -/
theorem paging_links_content {α : Type} (pg : Paging) (p : QueryParams) (c : Bool)
    (filters : List (String × String)) (kl ko : String)
    (query : Int → Int → Except String (List α)) (w : List α)
    (out : PagingOutcome α) (sub : Subset) (base : QMap)
    (hout : out = pg.select p c filters kl ko query)
    (hsub : sub = out.paging.subset)
    (hbase : base = setAll pg.endpointQuery (dropKeys filters kl ko))
    (hp0 : pg.previousLink = none) (hn0 : pg.nextLink = none)
    (hr : out.result = .ok w) :
    (sub.hasPrevious = false → out.paging.previousLink = none) ∧
    (sub.hasNext = false → out.paging.nextLink = none) ∧
    (sub.hasPrevious = true →
      out.paging.previousLink =
        some ((base.set kl (toString sub.limit)).set ko (toString sub.previous))) ∧
    (sub.hasNext = true →
      out.paging.nextLink =
        some ((base.set kl (toString sub.limit)).set ko (toString sub.next))) ∧
    (∀ k v, (filters.map Prod.fst).Nodup → (k, v) ∈ filters → k ≠ kl → k ≠ ko →
      base k = some v) := by
  subst hout hsub hbase
  have hv : ∀ k v, (filters.map Prod.fst).Nodup → (k, v) ∈ filters → k ≠ kl → k ≠ ko →
      setAll pg.endpointQuery (dropKeys filters kl ko) k = some v := by
    intro k v hnd hm hk1 hk2
    apply setAll_mem
    · exact List.Nodup.sublist (List.Sublist.map _ (List.filter_sublist _)) hnd
    · exact List.mem_filter.mpr ⟨hm, by simp [hk1, hk2]⟩
  simp only [Paging.select] at hr ⊢
  cases h0 : (pg.subset.select p c query).result with
  | error e =>
    rw [h0] at hr
    exact absurd hr (by simp)
  | ok w0 =>
    simp only [h0] at hr ⊢
    by_cases hp : (pg.subset.select p c query).state.hasPrevious = true <;>
      by_cases hn : (pg.subset.select p c query).state.hasNext = true <;>
      simp only [Subset.close, hp, hn, hp0, hn0, if_true, if_false] <;>
      refine ⟨?_, ?_, ?_, ?_, hv⟩ <;>
      simp [Subset.close, hp, hn, QMap.set_override]

/-- The outcome of a paging `Select` over a 13-row store with limit 4,
offset 8 and one filter, used by the C9 witness. -/
def c9Out : PagingOutcome Nat :=
  Paging.new.select { limit := 4, offset := 8 } true [("status", "open")] "l" "o"
    (storeQuery (List.range 13))

/-- The filters-only query map of the C9 witness. -/
def c9Base : QMap := setAll emptyQ (dropKeys [("status", "open")] "l" "o")

/-- Witness for C9: with limit 4 and offset 8 over 13 rows both links
exist; the previous link carries `l=4, o=4`, the next link `l=4, o=12`,
and both carry the `status=open` filter. -/
theorem paging_links_content_witness :
    c9Out.paging.previousLink =
      some ((c9Base.set "l" (toString (4 : Int))).set "o" (toString (4 : Int))) ∧
    c9Out.paging.nextLink =
      some ((c9Base.set "l" (toString (4 : Int))).set "o" (toString (12 : Int))) ∧
    c9Base "status" = some "open" := by
  have h := paging_links_content Paging.new { limit := 4, offset := 8 } true
    [("status", "open")] "l" "o" (storeQuery (List.range 13)) [8, 9, 10, 11]
    c9Out c9Out.paging.subset c9Base rfl rfl rfl rfl rfl rfl
  exact ⟨h.2.2.1 rfl, h.2.2.2.1 rfl,
    h.2.2.2.2 "status" "open" (by decide) (by decide) (by decide) (by decide)⟩
